import Mathlib

/-!
Verification of the crs2 asynchronous batch enhancement pipeline.

Shallow embedding of the core of `src/modules/async_enhancement_processor.py`
and `src/modules/api_rate_limiter.py`, with theorems settling the spec claims.
Modelling conventions: wall-clock readings (`datetime.now()`) are explicit
inputs, measured in integer microseconds exactly as CPython `datetime`
stores them; the float token estimate `words * 1.3` is carried in integer
tenths of a token (for integer word counts the two orderings used by the
code agree); the `max_tokens * 0.8` ceiling test is carried as the exactly
equivalent integer comparison `10 * est <= 8 * max_tokens`; the external
OpenAI API is an oracle parameter (per-batch or per-attempt outcome)
since its behaviour is not part of the program.
-/

namespace Crs2

/-- Python `min` over a nonempty list (`0` is an unused default for `[]`;
the source only calls `min` after checking the list is truthy). -/
def minOf : List Int → Int
  | [] => 0
  | t :: ts => ts.foldl min t

/-- Word count of Python `str.split()` with no separator: the number of
maximal runs of non-whitespace characters. -/
def countWords (s : String) : ℕ :=
  (s.toList.foldl
    (fun acc c =>
      if c.isWhitespace then (acc.1, false)
      else (if acc.2 then acc.1 else acc.1 + 1, true))
    ((0 : ℕ), false)).1

/-- A content item. The pipeline reads only `item.get('content', '')`;
any other dictionary keys ride along untouched and are modelled as an
opaque association list. -/
structure ContentItem where
  content : String
  metadata : List (String × String)
deriving DecidableEq

/-- Per-item token estimate in `create_chunks`, in tenths of a token:
`len(content.split()) * 1.3`. -/
def estimatedTokens (item : ContentItem) : ℕ :=
  countWords item.content * 13

/-- Loop body of `AsyncEnhancementProcessor.create_chunks`: `current` is
`current_chunk` and `size` is `current_size`; the closed chunks are emitted
through the returned list instead of an accumulator. -/
def createChunksGo (chunk_size : ℕ) :
    List ContentItem → List ContentItem → ℕ → List (List ContentItem)
  | [], current, _ => if current = [] then [] else [current]
  | item :: rest, current, size =>
    let est := estimatedTokens item
    if size + est > chunk_size * 1000 ∧ 5 ≤ current.length then
      current :: createChunksGo chunk_size rest [item] est
    else
      createChunksGo chunk_size rest (current ++ [item]) (size + est)

/-- `AsyncEnhancementProcessor.create_chunks` (constructor default
`chunk_size = 15`). -/
def create_chunks (chunk_size : ℕ) (content_items : List ContentItem) :
    List (List ContentItem) :=
  createChunksGo chunk_size content_items [] 0

theorem createChunksGo_join (cs : ℕ) :
    ∀ (items current : List ContentItem) (size : ℕ),
      (createChunksGo cs items current size).flatten = current ++ items := by
  intro items
  induction items with
  | nil =>
    intro current size
    by_cases h : current = [] <;> simp [createChunksGo, h]
  | cons item rest ih =>
    intro current size
    by_cases h : size + estimatedTokens item > cs * 1000 ∧ 5 ≤ current.length
    · simp [createChunksGo, h, ih]
    · simp [createChunksGo, h, ih]

theorem createChunksGo_ne_nil (cs : ℕ) :
    ∀ (items current : List ContentItem) (size : ℕ) (c : List ContentItem),
      c ∈ createChunksGo cs items current size → c ≠ [] := by
  intro items
  induction items with
  | nil =>
    intro current size c hc
    by_cases h : current = []
    · simp [createChunksGo, h] at hc
    · simp [createChunksGo, h] at hc
      simpa [hc] using h
  | cons item rest ih =>
    intro current size c hc
    by_cases h : size + estimatedTokens item > cs * 1000 ∧ 5 ≤ current.length
    · simp [createChunksGo, h] at hc
      rcases hc with hc | hc
      · subst hc
        intro hnil
        rw [hnil] at h
        simp at h
      · exact ih _ _ _ hc
    · simp [createChunksGo, h] at hc
      exact ih _ _ _ hc

/-- C3: concatenating the batches of `create_chunks`, in order, is the
identity on the input list; consequently the batch lengths sum to the
input length, and no returned batch is empty. -/
theorem create_chunks_flatten_identity (cs : ℕ) (items : List ContentItem) :
    (create_chunks cs items).flatten = items
    ∧ ((create_chunks cs items).map List.length).sum = items.length
    ∧ (create_chunks cs items).all (fun c => !c.isEmpty) = true := by
  have hjoin : (create_chunks cs items).flatten = items := by
    simpa using createChunksGo_join cs items [] 0
  refine ⟨hjoin, ?_, ?_⟩
  · rw [← List.length_flatten, hjoin]
  · rw [List.all_eq_true]
    intro c hc
    have := createChunksGo_ne_nil cs items [] 0 c hc
    simpa [List.isEmpty_iff] using this

/-- Drop a literal character sequence from the front of a list: `some` of
the remainder when the first argument is an initial segment of the second. -/
def dropLiteral : List Char → List Char → Option (List Char)
  | [], s => some s
  | _ :: _, [] => none
  | p :: ps, c :: s => if p = c then dropLiteral ps s else none

/-- Match the regex `Enhanced Item \d+:` of `_parse_batch_response` at the
head of the text: `some` of the remainder after the marker when the text
starts with the literal `"Enhanced Item "`, one or more digits, and `:`. -/
def dropMarker (cs : List Char) : Option (List Char) :=
  match dropLiteral "Enhanced Item ".toList cs with
  | none => none
  | some rest =>
    match rest.takeWhile Char.isDigit, rest.dropWhile Char.isDigit with
    | [], _ => none
    | _ :: _, ':' :: tail => some tail
    | _ :: _, _ => none

/-- `re.split(r"Enhanced Item \d+:", text)` by leftmost scan. `current`
holds the characters of the segment being built, in reverse. `fuel` makes
the recursion structural; every step consumes at least one character, so
calling with `fuel = text.length` never reaches the fuel-exhausted arm. -/
def markerSplitGo : ℕ → List Char → List Char → List (List Char)
  | _, current, [] => [current.reverse]
  | 0, current, rest => [current.reverse ++ rest]
  | fuel + 1, current, c :: cs =>
    match dropMarker (c :: cs) with
    | some rest => current.reverse :: markerSplitGo fuel [] rest
    | none => markerSplitGo fuel (c :: current) cs

/-- The `re.split(pattern, response_text)` call in `_parse_batch_response`. -/
def markerSplit (cs : List Char) : List (List Char) :=
  markerSplitGo cs.length [] cs

/-- Python `str.strip()`: remove leading and trailing whitespace. -/
def pyStrip (s : String) : String :=
  String.mk ((s.toList.dropWhile Char.isWhitespace).reverse.dropWhile Char.isWhitespace).reverse

/-- Leftmost non-overlapping split on a literal separator, as in Python
`str.split(sep)`; same fuel discipline as `markerSplitGo`. -/
def sepSplitGo (sep : List Char) : ℕ → List Char → List Char → List (List Char)
  | _, current, [] => [current.reverse]
  | 0, current, rest => [current.reverse ++ rest]
  | fuel + 1, current, c :: cs =>
    match dropLiteral sep (c :: cs) with
    | some rest => current.reverse :: sepSplitGo sep fuel [] rest
    | none => sepSplitGo sep fuel (c :: current) cs

/-- Python `s.split(sep)` for a nonempty literal separator. -/
def pySplit (s sep : String) : List String :=
  (sepSplitGo sep.toList s.toList.length [] s.toList).map (fun l => String.mk l)

/-- The `parts` list of `_parse_batch_response` after the
`if parts and not parts[0].strip(): parts = parts[1:]` adjustment. -/
def markerParts (response_text : String) : List String :=
  let parts0 := (markerSplit response_text.toList).map (fun l => String.mk l)
  match parts0 with
  | [] => parts0
  | p :: rest => if pyStrip p = "" then rest else parts0

/-- The sentinel padded into unmatched slots by `_parse_batch_response`. -/
def failurePlaceholder : String := "[Enhancement failed - using original content]"

/-- `AsyncEnhancementProcessor._parse_batch_response`: marker split first;
if that does not produce exactly `expected_count` parts, fall back to
splitting on `"\n\n"`, keep the first `expected_count` parts, and pad with
`failurePlaceholder`. -/
def parse_batch_response (response_text : String) (expected_count : ℕ) : List String :=
  let parts := markerParts response_text
  if parts.length = expected_count then
    parts.map pyStrip
  else
    let fallback := (pySplit response_text "\n\n").take expected_count
    fallback ++ List.replicate (expected_count - fallback.length) failurePlaceholder

theorem parse_batch_response_length (response_text : String) (expected_count : ℕ) :
    (parse_batch_response response_text expected_count).length = expected_count := by
  unfold parse_batch_response
  by_cases h : (markerParts response_text).length = expected_count
  · simp [h]
  · simp only [h, if_false, List.length_append, List.length_replicate, List.length_take]
    omega

/-- C2: `_parse_batch_response` is total and always returns exactly
`expected_count` strings; when the marker split does not yield exactly
`expected_count` parts it equals the first `expected_count` blank-line
segments padded with the failure placeholder. -/
theorem parse_batch_response_total (response_text : String) (expected_count : ℕ) :
    (parse_batch_response response_text expected_count).length = expected_count
    ∧ parse_batch_response response_text expected_count
        = (if (markerParts response_text).length = expected_count then
            (markerParts response_text).map pyStrip
          else
            ((pySplit response_text "\n\n").take expected_count)
              ++ List.replicate
                  (expected_count - ((pySplit response_text "\n\n").take expected_count).length)
                  failurePlaceholder) :=
  ⟨parse_batch_response_length response_text expected_count, rfl⟩

/-- One enhancement result dictionary built in `enhance_batch_async` /
`_enhance_batch_sync`. The `timestamp` key (`datetime.now().isoformat()`)
is wall-clock observability data and is omitted from the embedding. -/
structure EnhancementResult where
  original : ContentItem
  enhanced : String
  tone : String
  batch_id : ℕ
  item_index : ℕ
deriving DecidableEq

/-- The per-batch return dictionary. `token_usage` (observability only) is
omitted; `error` is `none` exactly when the success dictionary, which has
no `error` key, is returned. -/
structure BatchResult where
  batch_id : ℕ
  success : Bool
  results : List EnhancementResult
  error : Option String
deriving DecidableEq

/-- The `for i, (original_item, enhanced_content) in enumerate(zip(batch,
enhanced_items))` result-building loop shared by both enhancer variants. -/
def mkResults (batch : List ContentItem) (enhanced_items : List String)
    (tone : String) (batch_id : ℕ) : List EnhancementResult :=
  (batch.zip enhanced_items).enum.map (fun p => ⟨p.2.1, p.2.2, tone, batch_id, p.1⟩)

/-- Embedding of both `AsyncEnhancementProcessor.enhance_batch_async` and
`AsyncEnhancementProcessor._enhance_batch_sync` (their control flow is
textually identical; only the client is async vs sync). The API call is an
oracle: `Except.error e` covers the missing-client early return and every
exception caught by the `except Exception` handler, `Except.ok text` is the
response text `response.choices[0].message.content`. -/
def enhanceBatch (batch : List ContentItem) (_prompt_template tone : String)
    (batch_id : ℕ) (outcome : Except String String) : BatchResult :=
  match outcome with
  | Except.error e => ⟨batch_id, false, [], some e⟩
  | Except.ok enhanced_text =>
    let enhanced_items := parse_batch_response enhanced_text batch.length
    ⟨batch_id, true, mkResults batch enhanced_items tone batch_id, none⟩

/-- `AsyncEnhancementProcessor.process_all_batches_async`. The first
component is `all_results`. The second component is the trace of
`progress_callback(completed, len(chunks))` invocations: inside
`process_with_semaphore` the `nonlocal completed` increment and the
callback run with no intervening `await`, so under the single-threaded
event loop the k-th task to complete reports `(k, total)` — the argument
trace is `[(1, n), ..., (n, n)]` regardless of completion order. Tasks
never become exceptions (`enhance_batch_async` catches every `Exception`),
so the `isinstance(result, Exception)` arm of the aggregation loop is
unreachable and `asyncio.gather` yields the batch dictionaries in task
order. -/
def process_all_batches_async (chunks : List (List ContentItem))
    (prompt_template tone : String) (outcomes : ℕ → Except String String) :
    List EnhancementResult × List (ℕ × ℕ) :=
  let batch_results :=
    chunks.enum.map (fun p => enhanceBatch p.2 prompt_template tone p.1 (outcomes p.1))
  (batch_results.foldl (fun acc r => if r.success then acc ++ r.results else acc) [],
   (List.range chunks.length).map (fun k => (k + 1, chunks.length)))

/-- Loop body of `process_large_batch_sync`: the progress callback fires
first, with the 0-based chunk index, then the chunk is processed and its
results are appended when it succeeded. -/
def syncStep (prompt_template tone : String) (outcomes : ℕ → Except String String)
    (total : ℕ) (acc : List EnhancementResult × List (ℕ × ℕ))
    (p : ℕ × List ContentItem) : List EnhancementResult × List (ℕ × ℕ) :=
  let trace := acc.2 ++ [(p.1, total)]
  let r := enhanceBatch p.2 prompt_template tone p.1 (outcomes p.1)
  if r.success then (acc.1 ++ r.results, trace) else (acc.1, trace)

/-- `AsyncEnhancementProcessor.process_large_batch_sync` (the sequential
fallback): chunks the items itself, then processes chunks in order. First
component: `all_results`; second: the `progress_callback` argument trace. -/
def process_large_batch_sync (content_items : List ContentItem) (chunk_size : ℕ)
    (prompt_template tone : String) (outcomes : ℕ → Except String String) :
    List EnhancementResult × List (ℕ × ℕ) :=
  let chunks := create_chunks chunk_size content_items
  chunks.enum.foldl (syncStep prompt_template tone outcomes chunks.length) ([], [])

theorem mkResults_maps (batch : List ContentItem) (enhanced_items : List String)
    (tone : String) (batch_id : ℕ) (h : enhanced_items.length = batch.length) :
    (mkResults batch enhanced_items tone batch_id).map (fun r => r.original) = batch
    ∧ (mkResults batch enhanced_items tone batch_id).map (fun r => r.item_index)
        = List.range batch.length
    ∧ (mkResults batch enhanced_items tone batch_id).map (fun r => r.enhanced)
        = enhanced_items := by
  have hzip : (batch.zip enhanced_items).length = batch.length := by
    rw [List.length_zip, h, min_self]
  refine ⟨?_, ?_, ?_⟩
  · unfold mkResults
    rw [List.map_map,
      show ((fun r : EnhancementResult => r.original)
          ∘ (fun p : ℕ × (ContentItem × String) =>
              (⟨p.2.1, p.2.2, tone, batch_id, p.1⟩ : EnhancementResult)))
        = (Prod.fst ∘ Prod.snd) from rfl,
      ← List.map_map, List.enum_map_snd]
    exact List.map_fst_zip _ _ (by omega)
  · unfold mkResults
    rw [List.map_map,
      show ((fun r : EnhancementResult => r.item_index)
          ∘ (fun p : ℕ × (ContentItem × String) =>
              (⟨p.2.1, p.2.2, tone, batch_id, p.1⟩ : EnhancementResult)))
        = Prod.fst from rfl,
      List.enum_map_fst, hzip]
  · unfold mkResults
    rw [List.map_map,
      show ((fun r : EnhancementResult => r.enhanced)
          ∘ (fun p : ℕ × (ContentItem × String) =>
              (⟨p.2.1, p.2.2, tone, batch_id, p.1⟩ : EnhancementResult)))
        = (Prod.snd ∘ Prod.snd) from rfl,
      ← List.map_map, List.enum_map_snd]
    exact List.map_snd_zip _ _ (by omega)

theorem foldl_collect (l : List BatchResult) (acc : List EnhancementResult) :
    l.foldl (fun a r => if r.success then a ++ r.results else a) acc
      = acc ++ (l.map (fun r => if r.success then r.results else [])).flatten := by
  induction l generalizing acc with
  | nil => simp
  | cons r rest ih =>
    cases hs : r.success <;> simp [ih, hs]

theorem syncStep_foldl (prompt_template tone : String)
    (outcomes : ℕ → Except String String) (total : ℕ) :
    ∀ (l : List (ℕ × List ContentItem)) (a1 : List EnhancementResult)
      (a2 : List (ℕ × ℕ)),
      l.foldl (syncStep prompt_template tone outcomes total) (a1, a2)
        = (a1 ++ (l.map (fun p =>
              let r := enhanceBatch p.2 prompt_template tone p.1 (outcomes p.1)
              if r.success then r.results else [])).flatten,
           a2 ++ l.map (fun p => (p.1, total))) := by
  intro l
  induction l with
  | nil => intro a1 a2; simp
  | cons p rest ih =>
    intro a1 a2
    cases hs : (enhanceBatch p.2 prompt_template tone p.1 (outcomes p.1)).success <;>
      simp [syncStep, hs, ih]

theorem enum_map_pair {α : Type} (l : List α) (t : ℕ) :
    l.enum.map (fun p => (p.1, t)) = (List.range l.length).map (fun k => (k, t)) := by
  rw [show (fun p : ℕ × α => (p.1, t)) = ((fun k => (k, t)) ∘ Prod.fst) from rfl,
    ← List.map_map, List.enum_map_fst]

/-- C1: in both orchestrators the aggregated output is exactly the
concatenation, in batch order, of the per-item results of the successful
batches (failed batches contribute nothing); a batch's results list its
items exactly once in the original order, with `item_index` running
`0..N-1`; and the sequential fallback's chunks cover the submitted items
exactly, so no item is silently dropped or duplicated. -/
theorem orchestrator_no_silent_drop (chunks : List (List ContentItem))
    (prompt_template tone : String) (outcomes : ℕ → Except String String)
    (content_items : List ContentItem) (chunk_size : ℕ) :
    (process_all_batches_async chunks prompt_template tone outcomes).1
      = (chunks.enum.map (fun p =>
          let r := enhanceBatch p.2 prompt_template tone p.1 (outcomes p.1)
          if r.success then r.results else [])).flatten
    ∧ (∀ (batch : List ContentItem) (bid : ℕ) (outcome : Except String String),
        ((enhanceBatch batch prompt_template tone bid outcome).results.map
            (fun x => x.original)
          = (if (enhanceBatch batch prompt_template tone bid outcome).success
             then batch else []))
        ∧ ((enhanceBatch batch prompt_template tone bid outcome).results.map
            (fun x => x.item_index)
          = List.range (if (enhanceBatch batch prompt_template tone bid outcome).success
                        then batch.length else 0)))
    ∧ (process_large_batch_sync content_items chunk_size prompt_template tone outcomes).1
      = ((create_chunks chunk_size content_items).enum.map (fun p =>
          let r := enhanceBatch p.2 prompt_template tone p.1 (outcomes p.1)
          if r.success then r.results else [])).flatten
    ∧ (create_chunks chunk_size content_items).flatten = content_items := by
  refine ⟨?_, ?_, ?_, ?_⟩
  · rw [show ((process_all_batches_async chunks prompt_template tone outcomes).1
        = (chunks.enum.map
            (fun p => enhanceBatch p.2 prompt_template tone p.1 (outcomes p.1))).foldl
            (fun acc r => if r.success then acc ++ r.results else acc) []) from rfl,
      foldl_collect, List.map_map]
    rfl
  · intro batch bid outcome
    cases outcome with
    | error e => simp [enhanceBatch]
    | ok enhanced_text =>
      have hmk := mkResults_maps batch
        (parse_batch_response enhanced_text batch.length) tone bid
        (parse_batch_response_length enhanced_text batch.length)
      simpa [enhanceBatch] using ⟨hmk.1, hmk.2.1⟩
  · rw [show (process_large_batch_sync content_items chunk_size prompt_template tone outcomes)
        = (create_chunks chunk_size content_items).enum.foldl
            (syncStep prompt_template tone outcomes
              (create_chunks chunk_size content_items).length) ([], []) from rfl,
      syncStep_foldl]
    simp
  · simpa using createChunksGo_join chunk_size content_items [] 0

/-- C4 (amended): both modes invoke the progress callback exactly once per
batch regardless of batch success or failure, with strictly increasing
first argument and the batch count as second argument; but the concurrent
mode reports `completed = 1..total` after each completion, while the
sequential fallback reports the 0-based batch index `0..total-1` before
each batch, so it never reports `total`. -/
theorem progress_callback_traces (chunks : List (List ContentItem))
    (prompt_template tone : String) (outcomes : ℕ → Except String String)
    (content_items : List ContentItem) (chunk_size : ℕ) :
    (process_all_batches_async chunks prompt_template tone outcomes).2
      = (List.range chunks.length).map (fun k => (k + 1, chunks.length))
    ∧ (process_large_batch_sync content_items chunk_size prompt_template tone outcomes).2
      = (List.range (create_chunks chunk_size content_items).length).map
          (fun k => (k, (create_chunks chunk_size content_items).length)) := by
  constructor
  · rfl
  · rw [show (process_large_batch_sync content_items chunk_size prompt_template tone outcomes)
        = (create_chunks chunk_size content_items).enum.foldl
            (syncStep prompt_template tone outcomes
              (create_chunks chunk_size content_items).length) ([], []) from rfl,
      syncStep_foldl]
    simp [enum_map_pair]

/-- C4 counterexample: with a single batch, the concurrent orchestrator
invokes the progress callback with `(1, 1)` after the batch completes,
while the sequential fallback invokes it with `(0, 1)` before processing
the batch — `completed` never reaches `total` in the fallback, so the two
modes do not satisfy an identical progress-callback contract. -/
theorem progress_callback_contract_cex :
    (process_all_batches_async [[⟨"a", []⟩]] "" "" (fun _ => Except.error "boom")).2
      = [(1, 1)]
    ∧ (process_large_batch_sync [⟨"a", []⟩] 15 "" "" (fun _ => Except.error "boom")).2
      = [(0, 1)]
    ∧ ¬ ([((0 : ℕ), (1 : ℕ))] = [(1, 1)]) := by decide

/-- C7 (amended): when every character before the first marker is
whitespace and the marker split yields exactly `batch.length` segments,
the batch result maps the stripped segments 1:1 in their original order:
`item_index` runs `0..N-1`, each original item is preserved in order, and
no placeholder is inserted (the outputs are exactly the stripped marker
segments). -/
theorem wellformed_response_alignment (response_text : String)
    (pre : List Char) (segs : List (List Char)) (batch : List ContentItem)
    (prompt_template tone : String) (batch_id : ℕ)
    (hsplit : markerSplit response_text.toList = pre :: segs)
    (hpre : pyStrip (String.mk pre) = "")
    (hlen : segs.length = batch.length) :
    (enhanceBatch batch prompt_template tone batch_id
        (Except.ok response_text)).success = true
    ∧ (enhanceBatch batch prompt_template tone batch_id
        (Except.ok response_text)).results.map (fun r => r.enhanced)
        = segs.map (fun l => pyStrip (String.mk l))
    ∧ (enhanceBatch batch prompt_template tone batch_id
        (Except.ok response_text)).results.map (fun r => r.original) = batch
    ∧ (enhanceBatch batch prompt_template tone batch_id
        (Except.ok response_text)).results.map (fun r => r.item_index)
        = List.range batch.length := by
  have hparts : markerParts response_text = segs.map (fun l => String.mk l) := by
    have hsplit2 : markerSplit response_text.data = pre :: segs := hsplit
    simp [markerParts, hsplit2, hpre]
  have hplen : (markerParts response_text).length = batch.length := by
    rw [hparts, List.length_map, hlen]
  have hparse : parse_batch_response response_text batch.length
      = segs.map (fun l => pyStrip (String.mk l)) := by
    rw [parse_batch_response, if_pos hplen, hparts, List.map_map]
    rfl
  have hmk := mkResults_maps batch
    (parse_batch_response response_text batch.length) tone batch_id
    (parse_batch_response_length response_text batch.length)
  refine ⟨rfl, ?_, ?_, ?_⟩
  · show (mkResults batch (parse_batch_response response_text batch.length)
        tone batch_id).map (fun r => r.enhanced) = _
    rw [hmk.2.2, hparse]
  · exact hmk.1
  · exact hmk.2.1

theorem wellformed_response_alignment_witness :
    (enhanceBatch [⟨"a", []⟩, ⟨"b", []⟩] "" "t" 3
        (Except.ok "Enhanced Item 1: foo\n\nEnhanced Item 2: bar")).success = true
    ∧ (enhanceBatch [⟨"a", []⟩, ⟨"b", []⟩] "" "t" 3
        (Except.ok "Enhanced Item 1: foo\n\nEnhanced Item 2: bar")).results.map
          (fun r => r.enhanced)
        = [" foo\n\n".toList, " bar".toList].map (fun l => pyStrip (String.mk l))
    ∧ (enhanceBatch [⟨"a", []⟩, ⟨"b", []⟩] "" "t" 3
        (Except.ok "Enhanced Item 1: foo\n\nEnhanced Item 2: bar")).results.map
          (fun r => r.original) = [⟨"a", []⟩, ⟨"b", []⟩]
    ∧ (enhanceBatch [⟨"a", []⟩, ⟨"b", []⟩] "" "t" 3
        (Except.ok "Enhanced Item 1: foo\n\nEnhanced Item 2: bar")).results.map
          (fun r => r.item_index)
        = List.range ([(⟨"a", []⟩ : ContentItem), ⟨"b", []⟩].length) :=
  wellformed_response_alignment "Enhanced Item 1: foo\n\nEnhanced Item 2: bar"
    [] [" foo\n\n".toList, " bar".toList] [⟨"a", []⟩, ⟨"b", []⟩] "" "t" 3
    (by decide) (by decide) (by decide)

/-- C7 counterexample: `"Note:\n\nEnhanced Item 1: text"` contains exactly
one `Enhanced Item k:` marker (the regex split yields two parts), yet for a
1-item batch `_parse_batch_response` does not map the marker segment
(`"text"`): the non-whitespace preamble defeats the marker path and the
blank-line fallback returns `["Note:"]`. -/
theorem wellformed_response_alignment_cex :
    (markerSplit "Note:\n\nEnhanced Item 1: text".toList).length = 2
    ∧ parse_batch_response "Note:\n\nEnhanced Item 1: text" 1 = ["Note:"]
    ∧ ¬ (parse_batch_response "Note:\n\nEnhanced Item 1: text" 1 = ["text"]) := by
  decide

/-- The `ModelConfig` dataclass of `api_rate_limiter.py`; dollar costs are
the source's decimal literals as exact rationals. -/
structure ModelConfig where
  name : String
  max_tokens : ℕ
  cost_per_1k_input : ℚ
  cost_per_1k_output : ℚ
  rate_limit_rpm : ℕ
  fallback_model : Option String

def gpt4Config : ModelConfig :=
  ⟨"gpt-4", 8192, 3 / 100, 6 / 100, 60, some "gpt-4o-mini"⟩

def gpt4oMiniConfig : ModelConfig :=
  ⟨"gpt-4o-mini", 16384, 15 / 100000, 6 / 10000, 500, some "gpt-3.5-turbo"⟩

def gpt35TurboConfig : ModelConfig :=
  ⟨"gpt-3.5-turbo", 4096, 15 / 10000, 2 / 1000, 3500, none⟩

/-- The `self.models` dictionary of `APIRateLimiter.__init__`. -/
def models (model : String) : Option ModelConfig :=
  if model = "gpt-4" then some gpt4Config
  else if model = "gpt-4o-mini" then some gpt4oMiniConfig
  else if model = "gpt-3.5-turbo" then some gpt35TurboConfig
  else none

/-- `self.model_preference`. -/
def model_preference : List String := ["gpt-4o-mini", "gpt-3.5-turbo", "gpt-4"]

/-- `self.models.get(model, self.models["gpt-4o-mini"])`. -/
def effConfig (model : String) : ModelConfig :=
  (models model).getD gpt4oMiniConfig

/-- `timedelta(minutes=1)` in microseconds (CPython datetimes and
timedeltas are integer microsecond counts). -/
def oneMinute : Int := 60000000

/-- Python `int(td.total_seconds())` for a timedelta of `micros`
microseconds: seconds, truncated toward zero. -/
def pyIntSeconds (micros : Int) : Int := micros.tdiv 1000000

/-- Return value of `check_rate_limit` together with the cleaned list the
method stores back into `self.request_times`. -/
structure RateCheck where
  newTimes : List Int
  allowed : Bool
  waitTime : Int
deriving DecidableEq

/-- `APIRateLimiter.check_rate_limit`. `request_times` is the single
shared `self.request_times` list (timestamps in microseconds) and `now`
is `datetime.now()`. -/
def check_rate_limit (request_times : List Int) (now : Int) (model : String) :
    RateCheck :=
  let config := effConfig model
  let cutoff_time := now - oneMinute
  let times := request_times.filter (fun t => cutoff_time < t)
  let can_make_request := decide (times.length < config.rate_limit_rpm)
  let wait_time : Int :=
    if can_make_request = false ∧ times ≠ [] then
      pyIntSeconds (minOf times + oneMinute - now)
    else 0
  ⟨times, can_make_request, wait_time⟩

/-- `APIRateLimiter.estimate_cost` (dollars). -/
def estimate_cost (model : String) (input_tokens output_tokens : ℕ) : ℚ :=
  let m := if (models model).isSome then model else "gpt-4o-mini"
  let config := (models m).getD gpt4oMiniConfig
  ((input_tokens : ℚ) / 1000) * config.cost_per_1k_input
    + ((output_tokens : ℚ) / 1000) * config.cost_per_1k_output

/-- The `self.request_times.append(datetime.now())` executed while issuing
a request for `model`. The model argument is a phantom — the source keeps
one shared untagged list, which is exactly what claim C5 is about. -/
def recordFor (request_times : List Int) (_model : String) (t : Int) : List Int :=
  request_times ++ [t]

theorem foldl_min_le (ts : List Int) :
    ∀ a : Int, ts.foldl min a ≤ a ∧ ∀ x ∈ ts, ts.foldl min a ≤ x := by
  induction ts with
  | nil => intro a; simp
  | cons t ts ih =>
    intro a
    refine ⟨le_trans (ih (min a t)).1 (min_le_left a t), ?_⟩
    intro x hx
    rcases List.mem_cons.mp hx with hx | hx
    · subst hx
      exact le_trans (ih (min a x)).1 (min_le_right a x)
    · exact (ih (min a t)).2 x hx

theorem foldl_min_choice (ts : List Int) :
    ∀ a : Int, ts.foldl min a = a ∨ ts.foldl min a ∈ ts := by
  induction ts with
  | nil => intro a; simp
  | cons t ts ih =>
    intro a
    rcases ih (min a t) with h | h
    · rcases min_choice a t with hm | hm
      · left; rw [List.foldl_cons, h, hm]
      · right; rw [List.foldl_cons, h, hm]; exact List.mem_cons_self t ts
    · right; exact List.mem_cons_of_mem t h

theorem minOf_mem (l : List Int) (h : l ≠ []) : minOf l ∈ l := by
  cases l with
  | nil => exact absurd rfl h
  | cons t ts =>
    rcases foldl_min_choice ts t with h1 | h1
    · rw [minOf, h1]; exact List.mem_cons_self t ts
    · exact List.mem_cons_of_mem t h1

theorem minOf_le (l : List Int) (x : Int) (hx : x ∈ l) : minOf l ≤ x := by
  cases l with
  | nil => simp at hx
  | cons t ts =>
    rcases List.mem_cons.mp hx with h | h
    · subst h; exact (foldl_min_le ts x).1
    · exact (foldl_min_le ts t).2 x h

theorem rpm_pos (model : String) : 0 < (effConfig model).rate_limit_rpm := by
  unfold effConfig models
  split_ifs <;> decide

/-- C6: whenever exactly `rate_limit_rpm` recorded timestamps lie within
the trailing 60 seconds, `check_rate_limit` answers `allowed = false` with
`wait_time` the (truncated-to-seconds) time until the oldest timestamp in
the window expires; and at any later instant past that expiry — the oldest
timestamp having been dropped by the window filter — it answers
`allowed = true` again. -/
theorem check_rate_limit_window (model : String) (ts : List Int) (now : Int)
    (hlen : (ts.filter (fun t => now - oneMinute < t)).length
        = (effConfig model).rate_limit_rpm) :
    (check_rate_limit ts now model).allowed = false
    ∧ (check_rate_limit ts now model).waitTime
        = pyIntSeconds
            (minOf (ts.filter (fun t => now - oneMinute < t)) + oneMinute - now)
    ∧ ∀ now2 : Int, now ≤ now2 →
        minOf (ts.filter (fun t => now - oneMinute < t)) + oneMinute < now2 →
        (check_rate_limit ts now2 model).allowed = true := by
  have hpos : 0 < (effConfig model).rate_limit_rpm := rpm_pos model
  have hne : ts.filter (fun t => now - oneMinute < t) ≠ [] := by
    intro hnil
    rw [hnil] at hlen
    simp at hlen
    omega
  refine ⟨?_, ?_, ?_⟩
  · simp [check_rate_limit, hlen]
  · simp [check_rate_limit, hlen, hne]
  · intro now2 h12 hexp
    have hsub : ts.filter (fun t => now2 - oneMinute < t)
        = (ts.filter (fun t => now - oneMinute < t)).filter
            (fun t => now2 - oneMinute < t) := by
      rw [List.filter_filter]
      apply List.filter_congr
      intro x _
      by_cases h2 : now2 - oneMinute < x
      · have h1 : now - oneMinute < x := by omega
        simp [h1, h2]
      · simp [h2]
    have hmin : minOf (ts.filter (fun t => now - oneMinute < t))
        ∈ ts.filter (fun t => now - oneMinute < t) := minOf_mem _ hne
    have hlt : (ts.filter (fun t => now2 - oneMinute < t)).length
        < (effConfig model).rate_limit_rpm := by
      rw [hsub, ← hlen]
      apply List.length_filter_lt_length_iff_exists.mpr
      exact ⟨_, hmin, by simp; omega⟩
    simp [check_rate_limit, hlt]

set_option maxRecDepth 8000 in
theorem check_rate_limit_window_witness :
    (check_rate_limit (List.replicate 60 0) 30000000 "gpt-4").allowed = false
    ∧ (check_rate_limit (List.replicate 60 0) 30000000 "gpt-4").waitTime
        = pyIntSeconds
            (minOf ((List.replicate 60 0).filter
                (fun t => 30000000 - oneMinute < t)) + oneMinute - 30000000)
    ∧ (check_rate_limit (List.replicate 60 0) 70000000 "gpt-4").allowed = true := by
  have h := check_rate_limit_window "gpt-4" (List.replicate 60 0) 30000000 (by decide)
  exact ⟨h.1, h.2.1, h.2.2 70000000 (by decide) (by decide)⟩

set_option maxRecDepth 8000 in
/-- C5 counterexample: sixty requests recorded while calling `gpt-4o-mini`
exhaust `gpt-4`'s allowance (`rate_limit_rpm = 60`): with an empty window
`check_rate_limit "gpt-4"` allows, but after those sixty foreign requests
it refuses — requests for one model do reduce another model's allowance. -/
theorem rate_limit_not_per_model_cex :
    (check_rate_limit [] 0 "gpt-4").allowed = true
    ∧ (check_rate_limit
        ((List.range 60).foldl (fun st _ => recordFor st "gpt-4o-mini" 0) [])
        0 "gpt-4").allowed = false := by decide

/-- C5 (amended): the rate limiter keeps a single sliding 60-second window
shared by all models: recording a request retains no trace of the model it
was issued for, and `check_rate_limit model` counts every recorded request
— whichever model it was for — against `model`'s own `rate_limit_rpm`. -/
theorem rate_limit_window_shared (st : List Int) (m1 m2 : String) (t now : Int)
    (model : String) :
    check_rate_limit (recordFor st m1 t) now model
      = check_rate_limit (recordFor st m2 t) now model
    ∧ (check_rate_limit st now model).allowed
      = decide ((st.filter (fun u => now - oneMinute < u)).length
          < (effConfig model).rate_limit_rpm) :=
  ⟨rfl, rfl⟩

/-- C10: a model name absent from the configuration table falls back to
the `gpt-4o-mini` configuration in both `estimate_cost` (pricing) and
`check_rate_limit` (requests-per-minute ceiling), with no failure. -/
theorem unknown_model_defaults (model : String) (h : models model = none) :
    (∀ input_tokens output_tokens : ℕ,
      estimate_cost model input_tokens output_tokens
        = estimate_cost "gpt-4o-mini" input_tokens output_tokens)
    ∧ ∀ (ts : List Int) (now : Int),
        check_rate_limit ts now model = check_rate_limit ts now "gpt-4o-mini" := by
  constructor
  · intro input_tokens output_tokens
    unfold estimate_cost
    rw [h]
    rfl
  · intro ts now
    unfold check_rate_limit
    rw [show effConfig model = effConfig "gpt-4o-mini" by
      unfold effConfig; rw [h]; rfl]

theorem unknown_model_defaults_witness :
    estimate_cost "claude" 1000 500 = estimate_cost "gpt-4o-mini" 1000 500
    ∧ check_rate_limit [0] 30000000 "claude"
      = check_rate_limit [0] 30000000 "gpt-4o-mini" := by
  have h := unknown_model_defaults "claude" (by rfl)
  exact ⟨h.1 1000 500, h.2 [0] 30000000⟩

/-- The token-ceiling test `estimated_tokens <= config.max_tokens * 0.8`
of `select_best_model`, as the exactly equivalent integer comparison (for
integer token estimates the float comparison agrees). -/
def fitsB (estimated_tokens : ℕ) (config : ModelConfig) : Bool :=
  decide (10 * estimated_tokens ≤ 8 * config.max_tokens)

/-- Step 1 of `select_best_model`: `if preferred_model and preferred_model
in self.models:` then use it when it fits the token ceiling and passes the
rate check; the returned list is the possibly-cleaned `request_times`. -/
def selectStep1 (st : List Int) (now : Int) (estimated_tokens : ℕ)
    (preferred_model : Option String) : Option String × List Int :=
  match preferred_model with
  | none => (none, st)
  | some p =>
    if p ≠ "" ∧ (models p).isSome then
      if fitsB estimated_tokens (effConfig p) then
        if (check_rate_limit st now p).allowed then
          (some p, (check_rate_limit st now p).newTimes)
        else (none, (check_rate_limit st now p).newTimes)
      else (none, st)
    else (none, st)

/-- The first `for model_name in self.model_preference` loop of
`select_best_model`: first model that fits the token ceiling and passes
the rate check. -/
def selectAvailable (now : Int) (estimated_tokens : ℕ) :
    List String → List Int → Option String × List Int
  | [], st => (none, st)
  | name :: rest, st =>
    if fitsB estimated_tokens (effConfig name) = false then
      selectAvailable now estimated_tokens rest st
    else
      let c := check_rate_limit st now name
      if c.allowed then (some name, c.newTimes)
      else selectAvailable now estimated_tokens rest c.newTimes

/-- `wait_time < shortest_wait` where `shortest_wait` starts at
`float('inf')`, modelled as `none`. -/
def ltShortest (w : Int) : Option Int → Bool
  | none => true
  | some s => decide (w < s)

/-- The second `for model_name in self.model_preference` loop of
`select_best_model`: among token-fitting models, track the one with the
strictly smallest `wait_time`. -/
def selectShortest (now : Int) (estimated_tokens : ℕ) :
    List String → List Int → Option String → Option Int → Option String × List Int
  | [], st, best, _ => (best, st)
  | name :: rest, st, best, shortest =>
    if fitsB estimated_tokens (effConfig name) then
      let c := check_rate_limit st now name
      if ltShortest c.waitTime shortest then
        selectShortest now estimated_tokens rest c.newTimes (some name) (some c.waitTime)
      else
        selectShortest now estimated_tokens rest c.newTimes best shortest
    else selectShortest now estimated_tokens rest st best shortest

/-- `APIRateLimiter.select_best_model`, threading the `request_times`
mutations performed by the embedded `check_rate_limit` calls. -/
def select_best_model (st : List Int) (now : Int) (estimated_tokens : ℕ)
    (preferred_model : Option String) : String × List Int :=
  match selectStep1 st now estimated_tokens preferred_model with
  | (some name, st2) => (name, st2)
  | (none, st2) =>
    match selectAvailable now estimated_tokens model_preference st2 with
    | (some name, st3) => (name, st3)
    | (none, st3) =>
      let r := selectShortest now estimated_tokens model_preference st3 none none
      (r.1.getD "gpt-4o-mini", r.2)

theorem selectStep1_fits (st : List Int) (now : Int) (estimated_tokens : ℕ)
    (preferred_model : Option String) (name : String) (st2 : List Int)
    (h : selectStep1 st now estimated_tokens preferred_model = (some name, st2)) :
    fitsB estimated_tokens (effConfig name) = true
    ∧ (models name).isSome = true := by
  cases preferred_model with
  | none => simp [selectStep1] at h
  | some p =>
    have hdef : selectStep1 st now estimated_tokens (some p)
        = (if p ≠ "" ∧ (models p).isSome then
            if fitsB estimated_tokens (effConfig p) then
              if (check_rate_limit st now p).allowed then
                (some p, (check_rate_limit st now p).newTimes)
              else (none, (check_rate_limit st now p).newTimes)
            else (none, st)
          else (none, st)) := rfl
    rw [hdef] at h
    by_cases h1 : p ≠ "" ∧ (models p).isSome
    · rw [if_pos h1] at h
      by_cases h2 : fitsB estimated_tokens (effConfig p) = true
      · rw [if_pos h2] at h
        by_cases h3 : (check_rate_limit st now p).allowed = true
        · rw [if_pos h3, Prod.mk.injEq] at h
          obtain ⟨hpn, -⟩ := h
          rw [Option.some_inj] at hpn
          subst hpn
          exact ⟨h2, h1.2⟩
        · rw [if_neg h3] at h
          simp at h
      · rw [if_neg h2] at h
        simp at h
    · rw [if_neg h1] at h
      simp at h

theorem selectAvailable_fits (now : Int) (estimated_tokens : ℕ) :
    ∀ (lst : List String) (st : List Int) (name : String) (st2 : List Int),
      selectAvailable now estimated_tokens lst st = (some name, st2) →
      fitsB estimated_tokens (effConfig name) = true ∧ name ∈ lst := by
  intro lst
  induction lst with
  | nil => intro st name st2 h; simp [selectAvailable] at h
  | cons n rest ih =>
    intro st name st2 h
    by_cases hf : fitsB estimated_tokens (effConfig n) = false
    · rw [selectAvailable, if_pos hf] at h
      have := ih _ _ _ h
      exact ⟨this.1, List.mem_cons_of_mem n this.2⟩
    · cases hall : (check_rate_limit st now n).allowed
      · simp only [selectAvailable, hf, if_false, hall, Bool.false_eq_true] at h
        have := ih _ _ _ h
        exact ⟨this.1, List.mem_cons_of_mem n this.2⟩
      · simp only [selectAvailable, hf, if_false, hall, if_true] at h
        simp at h
        rw [← h.1]
        exact ⟨by simpa using hf, List.mem_cons_self n rest⟩

theorem selectShortest_good (now : Int) (estimated_tokens : ℕ) :
    ∀ (lst : List String) (st : List Int) (best : Option String)
      (shortest : Option Int),
      (∀ n ∈ lst, (models n).isSome = true) →
      (∀ m, best = some m →
        fitsB estimated_tokens (effConfig m) = true ∧ (models m).isSome = true) →
      ∀ m, (selectShortest now estimated_tokens lst st best shortest).1 = some m →
        fitsB estimated_tokens (effConfig m) = true ∧ (models m).isSome = true := by
  intro lst
  induction lst with
  | nil =>
    intro st best shortest _ hbest m hm
    rw [selectShortest] at hm
    exact hbest m hm
  | cons n rest ih =>
    intro st best shortest hin hbest m hm
    have hin2 : ∀ x ∈ rest, (models x).isSome = true := by
      intro x hx; exact hin x (List.mem_cons_of_mem n hx)
    by_cases hf : fitsB estimated_tokens (effConfig n) = true
    · rw [selectShortest, if_pos hf] at hm
      by_cases hlt : ltShortest (check_rate_limit st now n).waitTime shortest = true
      · rw [if_pos hlt] at hm
        refine ih _ _ _ hin2 ?_ m hm
        intro m2 hm2
        rw [Option.some_inj] at hm2
        subst hm2
        exact ⟨hf, hin n (List.mem_cons_self n rest)⟩
      · rw [if_neg hlt] at hm
        exact ih _ _ _ hin2 hbest m hm
    · rw [selectShortest, if_neg hf] at hm
      exact ih _ _ _ hin2 hbest m hm

theorem selectShortest_isSome (now : Int) (estimated_tokens : ℕ) :
    ∀ (lst : List String) (st : List Int) (best : Option String)
      (shortest : Option Int),
      ((∃ n ∈ lst, fitsB estimated_tokens (effConfig n) = true)
        ∨ best.isSome = true) →
      (shortest.isSome = true → best.isSome = true) →
      ((selectShortest now estimated_tokens lst st best shortest).1).isSome = true := by
  intro lst
  induction lst with
  | nil =>
    intro st best shortest hex hsb
    rcases hex with hex | hex
    · obtain ⟨n, hn, _⟩ := hex
      simp at hn
    · rw [selectShortest]; exact hex
  | cons n rest ih =>
    intro st best shortest hex hsb
    by_cases hf : fitsB estimated_tokens (effConfig n) = true
    · rw [selectShortest, if_pos hf]
      by_cases hlt : ltShortest (check_rate_limit st now n).waitTime shortest = true
      · rw [if_pos hlt]
        exact ih _ _ _ (Or.inr rfl) (fun _ => rfl)
      · rw [if_neg hlt]
        have hshort : shortest.isSome = true := by
          cases shortest with
          | none => simp [ltShortest] at hlt
          | some s => rfl
        exact ih _ _ _ (Or.inr (hsb hshort)) hsb
    · rw [selectShortest, if_neg hf]
      rcases hex with hex | hex
      · obtain ⟨x, hx, hxf⟩ := hex
        rcases List.mem_cons.mp hx with hx | hx
        · subst hx; exact absurd hxf hf
        · exact ih _ _ _ (Or.inl ⟨x, hx, hxf⟩) hsb
      · exact ih _ _ _ (Or.inr hex) hsb

theorem models_mem_pref (name : String) (cfg : ModelConfig)
    (h : models name = some cfg) :
    name ∈ model_preference ∧ effConfig name = cfg := by
  unfold models at h
  split_ifs at h with h1 h2 h3
  · subst h1
    cases h
    exact ⟨by decide, rfl⟩
  · subst h2
    cases h
    exact ⟨by decide, rfl⟩
  · subst h3
    cases h
    exact ⟨by decide, rfl⟩

theorem pref_isSome : ∀ n ∈ model_preference, (models n).isSome = true := by
  decide

/-- C8: `select_best_model` never returns a model whose (80 percent of)
`max_tokens` ceiling is below the token estimate when at least one
configured model satisfies the ceiling: the returned name is always a
configured model that fits. -/
theorem select_best_model_token_ceiling (st : List Int) (now : Int)
    (estimated_tokens : ℕ) (preferred_model : Option String)
    (h : ∃ name cfg, models name = some cfg
        ∧ fitsB estimated_tokens cfg = true) :
    fitsB estimated_tokens
        (effConfig (select_best_model st now estimated_tokens preferred_model).1) = true
    ∧ (models (select_best_model st now estimated_tokens preferred_model).1).isSome
        = true := by
  obtain ⟨name0, cfg0, hm0, hfit0⟩ := h
  have hp0 := models_mem_pref name0 cfg0 hm0
  rcases h1 : selectStep1 st now estimated_tokens preferred_model with ⟨o1, st2⟩
  cases o1 with
  | some p =>
    have hfits := selectStep1_fits st now estimated_tokens preferred_model p st2 h1
    simp only [select_best_model, h1]
    exact hfits
  | none =>
    rcases h2 : selectAvailable now estimated_tokens model_preference st2 with ⟨o2, st3⟩
    cases o2 with
    | some q =>
      have hq := selectAvailable_fits now estimated_tokens model_preference st2 q st3 h2
      simp only [select_best_model, h1, h2]
      exact ⟨hq.1, pref_isSome q hq.2⟩
    | none =>
      have hsome := selectShortest_isSome now estimated_tokens model_preference st3
        none none (Or.inl ⟨name0, hp0.1, hp0.2 ▸ hfit0⟩) (by simp)
      rcases hr : (selectShortest now estimated_tokens model_preference st3 none none).1
        with _ | m
      · rw [hr] at hsome; simp at hsome
      · have hg := selectShortest_good now estimated_tokens model_preference st3
          none none pref_isSome (by simp) m hr
        simp only [select_best_model, h1, h2, hr]
        simpa using hg

theorem select_best_model_token_ceiling_witness :
    fitsB 0 (effConfig (select_best_model [] 0 0 none).1) = true
    ∧ (models (select_best_model [] 0 0 none).1).isSome = true :=
  select_best_model_token_ceiling [] 0 0 none ⟨"gpt-4", gpt4Config, rfl, by decide⟩

/-- `APIRateLimiter.estimate_tokens`: `len(text) // 4`. -/
def estimate_tokens (text : String) : ℕ := text.length / 4

/-- Outcome of one actual API call, as seen by the exception handlers of
`make_api_call_with_retry` / `make_api_call_sync`: success (with the
response abstracted to its total token count), `openai.RateLimitError`,
`openai.APIError`, or any other exception; errors carry `str(e)`. -/
inductive AttemptOutcome where
  | success (totalTokens : ℕ)
  | rateLimitErr (msg : String)
  | apiErr (msg : String)
  | otherErr (msg : String)

/-- The dictionary returned by `make_api_call_with_retry` /
`make_api_call_sync`; `response` abstracts the response object to its
token count, `error` is `none` exactly for the success dictionary, which
carries no `error` key. -/
structure CallResult where
  response : Option ℕ
  model_used : String
  attempt : ℕ
  success : Bool
  error : Option String
deriving DecidableEq

/-- Python `str(x)` for the `last_exception` variable: `str(None)` is the
literal `"None"`; an exception renders as its message. -/
def pyStr : Option String → String
  | none => "None"
  | some s => s

/-- The rate-limit-error fallback switch: `config = self.models.get(m)`;
`if config and config.fallback_model: m = config.fallback_model`. -/
def fallbackOf (model : String) : String :=
  match (models model).bind (fun config => config.fallback_model) with
  | some f => f
  | none => model

/-- Whether `pat` occurs as a contiguous run at the head of `s`. -/
def leadsWith : List Char → List Char → Bool
  | [], _ => true
  | _ :: _, [] => false
  | p :: ps, c :: cs => p = c && leadsWith ps cs

/-- Whether `pat` occurs as a contiguous run anywhere in the second list. -/
def containsSeq (pat : List Char) : List Char → Bool
  | [] => leadsWith pat []
  | c :: cs => leadsWith pat (c :: cs) || containsSeq pat cs

/-- Python `str.lower()` (ASCII-adequate for the messages involved). -/
def pyLower (s : String) : String := String.mk (s.toList.map Char.toLower)

/-- The `"maximum context length" in str(e).lower()` test. -/
def isContextLengthError (msg : String) : Bool :=
  containsSeq "maximum context length".toList (pyLower msg).toList

/-- The `for attempt in range(max_retries)` loop shared by
`make_api_call_with_retry` and `make_api_call_sync` (their control flow is
textually identical; only sleeping is async vs sync, and sleeps are
timeless here — the wall clock at each attempt comes from `clock`).
`remaining` counts attempts left (`attempt = max_retries - remaining`);
`outcomes attempt` is the API oracle for the call made at that attempt,
consulted only if the local rate check allows. Returns the loop's result
(`Except.error` models the re-`raise` of a context-length error with no
smaller model) together with the list of attempt indices at which the
external API was actually called. -/
def retryLoop (max_retries : ℕ) (clock : ℕ → Int) (outcomes : ℕ → AttemptOutcome) :
    ℕ → String → Option String → List Int → List ℕ →
    Except String CallResult × List ℕ
  | 0, selected, last_exc, _, calls =>
    (Except.ok ⟨none, selected, max_retries, false, some (pyStr last_exc)⟩, calls)
  | remaining + 1, selected, last_exc, st, calls =>
    let attempt := max_retries - (remaining + 1)
    let now := clock attempt
    let c := check_rate_limit st now selected
    if c.allowed = false then
      retryLoop max_retries clock outcomes remaining selected last_exc c.newTimes calls
    else
      let st2 := c.newTimes ++ [now]
      match outcomes attempt with
      | AttemptOutcome.success tok =>
        (Except.ok ⟨some tok, selected, attempt + 1, true, none⟩, calls ++ [attempt])
      | AttemptOutcome.rateLimitErr e =>
        retryLoop max_retries clock outcomes remaining (fallbackOf selected)
          (some e) st2 (calls ++ [attempt])
      | AttemptOutcome.apiErr e =>
        if isContextLengthError e then
          if selected = "gpt-4" then
            retryLoop max_retries clock outcomes remaining "gpt-4o-mini"
              last_exc st2 (calls ++ [attempt])
          else if selected = "gpt-4o-mini" then
            retryLoop max_retries clock outcomes remaining "gpt-3.5-turbo"
              last_exc st2 (calls ++ [attempt])
          else (Except.error e, calls ++ [attempt])
        else
          retryLoop max_retries clock outcomes remaining selected
            (some e) st2 (calls ++ [attempt])
      | AttemptOutcome.otherErr e =>
        retryLoop max_retries clock outcomes remaining selected
          (some e) st2 (calls ++ [attempt])

/-- Embedding of `APIRateLimiter.make_api_call_with_retry` and
`make_api_call_sync`: estimate tokens from the joined message contents,
select a model (threading the `request_times` cleanups), then run the
retry loop. `clock` gives `datetime.now()` at each attempt (model
selection reads the clock of attempt 0). -/
def make_api_call_with_retry (messages : List (String × String))
    (preferred_model : Option String) (max_retries : ℕ) (st0 : List Int)
    (clock : ℕ → Int) (outcomes : ℕ → AttemptOutcome) :
    Except String CallResult × List ℕ :=
  let total_text := String.intercalate " " (messages.map (fun m => m.2))
  let estimated_tokens := estimate_tokens total_text
  let sel := select_best_model st0 (clock 0) estimated_tokens preferred_model
  retryLoop max_retries clock outcomes max_retries sel.1 none sel.2 []

theorem retryLoop_calls_extend (max_retries : ℕ) (clock : ℕ → Int)
    (outcomes : ℕ → AttemptOutcome) :
    ∀ (remaining : ℕ) (selected : String) (last_exc : Option String)
      (st : List Int) (calls : List ℕ),
      ∃ t, (retryLoop max_retries clock outcomes remaining selected
              last_exc st calls).2 = calls ++ t := by
  intro remaining
  induction remaining with
  | zero =>
    intro selected last_exc st calls
    exact ⟨[], by simp [retryLoop]⟩
  | succ remaining ih =>
    intro selected last_exc st calls
    rw [retryLoop]
    by_cases hc : (check_rate_limit st (clock (max_retries - (remaining + 1)))
        selected).allowed = false
    · rw [if_pos hc]
      exact ih _ _ _ _
    · rw [if_neg hc]
      cases houtcome : outcomes (max_retries - (remaining + 1)) with
      | success tok => exact ⟨[max_retries - (remaining + 1)], rfl⟩
      | rateLimitErr e =>
        dsimp only
        obtain ⟨t, ht⟩ := ih (fallbackOf selected) (some e) _ (calls ++ [max_retries - (remaining + 1)])
        exact ⟨[max_retries - (remaining + 1)] ++ t, by rw [ht, List.append_assoc]⟩
      | apiErr e =>
        dsimp only
        by_cases hctx : isContextLengthError e = true
        · rw [if_pos hctx]
          by_cases h4 : selected = "gpt-4"
          · rw [if_pos h4]
            obtain ⟨t, ht⟩ := ih "gpt-4o-mini" last_exc _ (calls ++ [max_retries - (remaining + 1)])
            exact ⟨[max_retries - (remaining + 1)] ++ t, by rw [ht, List.append_assoc]⟩
          · rw [if_neg h4]
            by_cases h4o : selected = "gpt-4o-mini"
            · rw [if_pos h4o]
              obtain ⟨t, ht⟩ := ih "gpt-3.5-turbo" last_exc _ (calls ++ [max_retries - (remaining + 1)])
              exact ⟨[max_retries - (remaining + 1)] ++ t, by rw [ht, List.append_assoc]⟩
            · rw [if_neg h4o]
              exact ⟨[max_retries - (remaining + 1)], rfl⟩
        · rw [if_neg hctx]
          obtain ⟨t, ht⟩ := ih selected (some e) _ (calls ++ [max_retries - (remaining + 1)])
          exact ⟨[max_retries - (remaining + 1)] ++ t, by rw [ht, List.append_assoc]⟩
      | otherErr e =>
        dsimp only
        obtain ⟨t, ht⟩ := ih selected (some e) _ (calls ++ [max_retries - (remaining + 1)])
        exact ⟨[max_retries - (remaining + 1)] ++ t, by rw [ht, List.append_assoc]⟩

theorem retryLoop_all_denied (max_retries : ℕ) (clock : ℕ → Int)
    (outcomes : ℕ → AttemptOutcome) :
    ∀ (remaining : ℕ) (selected : String) (last_exc : Option String)
      (st : List Int) (calls : List ℕ),
      (retryLoop max_retries clock outcomes remaining selected last_exc st calls).2
          = calls →
      (retryLoop max_retries clock outcomes remaining selected last_exc st calls).1
        = Except.ok ⟨none, selected, max_retries, false, some (pyStr last_exc)⟩ := by
  intro remaining
  induction remaining with
  | zero => intro selected last_exc st calls _; rw [retryLoop]
  | succ remaining ih =>
    intro selected last_exc st calls hcalls
    rw [retryLoop] at hcalls ⊢
    by_cases hc : (check_rate_limit st (clock (max_retries - (remaining + 1)))
        selected).allowed = false
    · rw [if_pos hc] at hcalls ⊢
      exact ih _ _ _ _ hcalls
    · exfalso
      rw [if_neg hc] at hcalls
      have hne : ∀ t : List ℕ, calls ++ [max_retries - (remaining + 1)] ++ t ≠ calls := by
        intro t hteq
        have := congrArg List.length hteq
        simp at this
      cases houtcome : outcomes (max_retries - (remaining + 1)) with
      | success tok =>
        rw [houtcome] at hcalls
        dsimp only at hcalls
        have := congrArg List.length hcalls
        simp at this
      | rateLimitErr e =>
        rw [houtcome] at hcalls
        dsimp only at hcalls
        obtain ⟨t, ht⟩ := retryLoop_calls_extend max_retries clock outcomes
          remaining (fallbackOf selected) (some e) _ (calls ++ [max_retries - (remaining + 1)])
        rw [ht] at hcalls
        exact hne t hcalls
      | apiErr e =>
        rw [houtcome] at hcalls
        dsimp only at hcalls
        by_cases hctx : isContextLengthError e = true
        · rw [if_pos hctx] at hcalls
          by_cases h4 : selected = "gpt-4"
          · rw [if_pos h4] at hcalls
            obtain ⟨t, ht⟩ := retryLoop_calls_extend max_retries clock outcomes
              remaining "gpt-4o-mini" last_exc _ (calls ++ [max_retries - (remaining + 1)])
            rw [ht] at hcalls
            exact hne t hcalls
          · rw [if_neg h4] at hcalls
            by_cases h4o : selected = "gpt-4o-mini"
            · rw [if_pos h4o] at hcalls
              obtain ⟨t, ht⟩ := retryLoop_calls_extend max_retries clock outcomes
                remaining "gpt-3.5-turbo" last_exc _ (calls ++ [max_retries - (remaining + 1)])
              rw [ht] at hcalls
              exact hne t hcalls
            · rw [if_neg h4o] at hcalls
              have := congrArg List.length hcalls
              simp at this
        · rw [if_neg hctx] at hcalls
          obtain ⟨t, ht⟩ := retryLoop_calls_extend max_retries clock outcomes
            remaining selected (some e) _ (calls ++ [max_retries - (remaining + 1)])
          rw [ht] at hcalls
          exact hne t hcalls
      | otherErr e =>
        rw [houtcome] at hcalls
        dsimp only at hcalls
        obtain ⟨t, ht⟩ := retryLoop_calls_extend max_retries clock outcomes
          remaining selected (some e) _ (calls ++ [max_retries - (remaining + 1)])
        rw [ht] at hcalls
        exact hne t hcalls

/-- C9: if the external API is never called — every attempt of the retry
loop was skipped by the local `check_rate_limit` denial (the call trace is
empty) — then the function returns the structured failure dictionary with
`success = false`, `attempt = max_retries`, the originally selected model,
and an `error` field that is the literal string `"None"` (the
stringification of the never-assigned `last_exception`), not a description
of the rate-limit condition. -/
theorem retry_all_denied_error_none (messages : List (String × String))
    (preferred_model : Option String) (max_retries : ℕ) (st0 : List Int)
    (clock : ℕ → Int) (outcomes : ℕ → AttemptOutcome)
    (h : (make_api_call_with_retry messages preferred_model max_retries st0
        clock outcomes).2 = []) :
    (make_api_call_with_retry messages preferred_model max_retries st0
        clock outcomes).1
      = Except.ok
          ⟨none,
           (select_best_model st0 (clock 0)
             (estimate_tokens (String.intercalate " " (messages.map (fun m => m.2))))
             preferred_model).1,
           max_retries, false, some "None"⟩ :=
  retryLoop_all_denied max_retries clock outcomes max_retries _ none _ [] h

theorem foldl_min_replicate (n : ℕ) (a : Int) :
    (List.replicate n a).foldl min a = a := by
  induction n with
  | zero => rfl
  | succ n ih => rw [List.replicate_succ, List.foldl_cons, min_self]; exact ih

theorem minOf_replicate (n : ℕ) (hn : n ≠ 0) (a : Int) :
    minOf (List.replicate n a) = a := by
  cases n with
  | zero => exact absurd rfl hn
  | succ n =>
    rw [List.replicate_succ]
    show (List.replicate n a).foldl min a = a
    exact foldl_min_replicate n a

theorem replicate_3500_ne_nil : List.replicate 3500 (0 : Int) ≠ [] := by
  intro hnil
  have h0 := congrArg List.length hnil
  rw [List.length_replicate] at h0
  simp at h0

theorem check_full_window (m : String)
    (hm : (effConfig m).rate_limit_rpm ≤ 3500) :
    check_rate_limit (List.replicate 3500 0) 0 m
      = ⟨List.replicate 3500 0, false, 60⟩ := by
  have hfilter : (List.replicate 3500 (0 : Int)).filter
      (fun t => (0 : Int) - oneMinute < t) = List.replicate 3500 0 := by
    rw [List.filter_replicate]
    norm_num [oneMinute]
  unfold check_rate_limit
  dsimp only
  rw [hfilter]
  simp only [List.length_replicate]
  rw [decide_eq_false (by omega), if_pos ⟨rfl, replicate_3500_ne_nil⟩,
    minOf_replicate 3500 (by norm_num) 0,
    show pyIntSeconds (0 + oneMinute - 0) = 60 from by decide]

theorem select_full_window :
    select_best_model (List.replicate 3500 0) 0 0 none
      = ("gpt-4o-mini", List.replicate 3500 0) := by
  have e2 : selectAvailable 0 0 model_preference (List.replicate 3500 0)
      = (none, List.replicate 3500 0) := by
    unfold model_preference
    rw [selectAvailable, if_neg (by decide), check_full_window _ (by decide)]
    dsimp only
    rw [if_neg (by decide)]
    rw [selectAvailable, if_neg (by decide), check_full_window _ (by decide)]
    dsimp only
    rw [if_neg (by decide)]
    rw [selectAvailable, if_neg (by decide), check_full_window _ (by decide)]
    dsimp only
    rw [if_neg (by decide)]
    rw [selectAvailable]
  have e3 : selectShortest 0 0 model_preference (List.replicate 3500 0) none none
      = (some "gpt-4o-mini", List.replicate 3500 0) := by
    unfold model_preference
    rw [selectShortest, if_pos (by decide), check_full_window _ (by decide)]
    dsimp only
    rw [if_pos (by decide)]
    rw [selectShortest, if_pos (by decide), check_full_window _ (by decide)]
    dsimp only
    rw [if_neg (by decide)]
    rw [selectShortest, if_pos (by decide), check_full_window _ (by decide)]
    dsimp only
    rw [if_neg (by decide)]
    rw [selectShortest]
  unfold select_best_model
  rw [show selectStep1 (List.replicate 3500 0) 0 0 none
      = (none, List.replicate 3500 0) from rfl]
  dsimp only
  rw [e2]
  dsimp only
  rw [e3]
  rfl

theorem retry_witness_unfold :
    (make_api_call_with_retry [] none 1 (List.replicate 3500 0)
        (fun _ => 0) (fun _ => AttemptOutcome.success 0))
    = retryLoop 1 (fun _ => 0) (fun _ => AttemptOutcome.success 0) 1
        (select_best_model (List.replicate 3500 0) 0 0 none).1 none
        (select_best_model (List.replicate 3500 0) 0 0 none).2 [] := rfl

theorem retry_witness_loop :
    (retryLoop 1 (fun _ => 0) (fun _ => AttemptOutcome.success 0) 1
      "gpt-4o-mini" none (List.replicate 3500 0) []).2 = [] := by
  show (retryLoop 1 (fun _ => 0) (fun _ => AttemptOutcome.success 0) (0 + 1)
    "gpt-4o-mini" none (List.replicate 3500 0) []).2 = []
  rw [retryLoop]
  rw [check_full_window _ (by decide)]
  dsimp only
  rw [if_pos rfl]
  rw [retryLoop]

theorem retry_witness_calls_empty :
    (make_api_call_with_retry [] none 1 (List.replicate 3500 0)
        (fun _ => 0) (fun _ => AttemptOutcome.success 0)).2 = [] := by
  rw [retry_witness_unfold, select_full_window]
  exact retry_witness_loop

theorem retry_all_denied_error_none_witness :
    (make_api_call_with_retry [] none 1 (List.replicate 3500 0)
        (fun _ => 0) (fun _ => AttemptOutcome.success 0)).1
      = Except.ok
          ⟨none,
           (select_best_model (List.replicate 3500 0) ((fun _ => (0 : Int)) 0)
             (estimate_tokens (String.intercalate " "
               (([] : List (String × String)).map (fun m => m.2))))
             none).1,
           1, false, some "None"⟩ :=
  retry_all_denied_error_none [] none 1 (List.replicate 3500 0)
    (fun _ => 0) (fun _ => AttemptOutcome.success 0) retry_witness_calls_empty

end Crs2
